import Mathlib

/-!
Verification of the bnbpoly paper-trading engine (`src/backend/trading_bot.py`)
against its natural-language specification.

Modelling conventions:
* Python floats are modelled as exact rationals (`ℚ`); all quantities the
  claims speak about (balances, prices, sizes, profits) are exact decimal
  arithmetic at the claim level.
* Python dicts keyed by strings are modelled as association lists with
  Python's overwrite-on-assignment semantics (`dictGet`/`dictSet`/`dictDel`).
* Wall-clock times are modelled as rational second counts (`now`,
  `entry_time`, `held_seconds`).
* Nondeterministic or display-only pieces of the source are omitted and noted
  at each definition: the random trade `id` string, the `timestamp` field,
  `market_image` URLs, the numeric interpolation inside human-readable
  `reason` strings, the `print` logging, and the `round(_, 2)` display
  rounding in `get_stats`.
-/

namespace BnbPoly

/-- Python-dict lookup `d.get(key)`: the value of the first entry carrying
the key (a Python dict holds at most one). -/
def dictGet {α : Type} : List (String × α) → String → Option α
  | [], _ => none
  | kv :: rest, key => if kv.1 = key then some kv.2 else dictGet rest key

/-- Python-dict assignment `d[key] = v`: replace the entry if the key is
present, otherwise append a new entry at the end. -/
def dictSet {α : Type} : List (String × α) → String → α → List (String × α)
  | [], key, v => [(key, v)]
  | kv :: rest, key, v =>
      if kv.1 = key then (key, v) :: rest else kv :: dictSet rest key v

/-- Python-dict deletion `del d[key]`. -/
def dictDel {α : Type} : List (String × α) → String → List (String × α)
  | [], _ => []
  | kv :: rest, key =>
      if kv.1 = key then dictDel rest key else kv :: dictDel rest key

/-- The `TradingPosition` dataclass (trading_bot.py lines 21-33). -/
structure TradingPosition where
  market_id : String
  market_title : String
  outcome : String
  entry_price : ℚ
  size : ℚ
  entry_time : ℚ
  current_price : ℚ
  unrealized_pnl : ℚ
  strategy : String
  trade_type : String
deriving Repr, DecidableEq

/-- The `SimulatedTrade` dataclass (trading_bot.py lines 36-51).  The random
`id` string, the wall-clock `timestamp` and the display-only `market_image`
URL are omitted. -/
structure SimulatedTrade where
  market_id : String
  market_title : String
  action : String
  outcome : String
  price : ℚ
  size : ℚ
  reason : String
  profit : Option ℚ
  strategy : String
  trade_type : String
deriving Repr, DecidableEq

/-- The `MarketAnalysis` dataclass (trading_bot.py lines 54-71). -/
structure MarketAnalysis where
  market_id : String
  volume : ℚ
  liquidity : ℚ
  trend : ℚ
  momentum : ℚ
  sentiment : ℚ
  score : ℚ
  arbitrage_opportunity : Option ℚ
  spread : ℚ
  price_yes : ℚ
  price_no : ℚ
  volume_24h : ℚ
  liquidity_depth : ℚ
  volume_score : ℚ
  context_score : ℚ
deriving Repr, DecidableEq

/-- The ledger slice of `TradingBot.__init__` (lines 77-84): virtual balance,
the initial balance, the open positions dict keyed by `"market_id-outcome"`,
and the trade history (newest first).  The `pnl_history` display series and
the `market_analyses`/`price_history` caches are not part of the ledger
claims and are modelled separately where needed. -/
structure TradingBotState where
  balance : ℚ
  initial_balance : ℚ
  positions : List (String × TradingPosition)
  trades : List SimulatedTrade
deriving Repr, DecidableEq

/-- A freshly constructed `TradingBot(initial_balance)`. -/
def initState (initial_balance : ℚ) : TradingBotState :=
  { balance := initial_balance, initial_balance := initial_balance,
    positions := [], trades := [] }

/-- The position key `f"{market_id}-{outcome}"` used throughout the source. -/
def positionKey (market_id outcome : String) : String :=
  market_id ++ "-" ++ outcome

/-- `TradingBot._open_position` (lines 1789-1836).  The only guard inside the
function itself is the balance check `size > self.balance`; on success it
stores the position under the key (overwriting any existing entry, per dict
assignment), debits the balance and prepends a BUY trade with `profit=None`.
`now` stands for `datetime.now()`. -/
def open_position (s : TradingBotState) (market_id market_title outcome : String)
    (price size : ℚ) (strategy reason trade_type : String) (now : ℚ) :
    TradingBotState :=
  if size > s.balance then s
  else
    let key := positionKey market_id outcome
    let position : TradingPosition :=
      { market_id := market_id, market_title := market_title, outcome := outcome,
        entry_price := price, size := size, entry_time := now,
        current_price := price, unrealized_pnl := 0,
        strategy := strategy, trade_type := trade_type }
    let trade : SimulatedTrade :=
      { market_id := market_id, market_title := market_title, action := "BUY",
        outcome := outcome, price := price, size := size, reason := reason,
        profit := none, strategy := strategy, trade_type := trade_type }
    { s with positions := dictSet s.positions key position,
             balance := s.balance - size,
             trades := trade :: s.trades }

/-- `TradingBot._close_position` (lines 1838-1885).  If the position key is
absent the call returns without touching any state; otherwise it credits the
balance with `size * (current_price / entry_price)`, prepends a SELL trade
carrying the realized profit, and deletes the key. -/
def close_position (s : TradingBotState) (position : TradingPosition)
    (current_price : ℚ) (market_title reason : String) : TradingBotState :=
  let key := positionKey position.market_id position.outcome
  if (dictGet s.positions key).isNone then s
  else
    let current_value := position.size * (current_price / position.entry_price)
    let profit := current_value - position.size
    let trade : SimulatedTrade :=
      { market_id := position.market_id, market_title := market_title,
        action := "SELL", outcome := position.outcome, price := current_price,
        size := position.size, reason := reason, profit := some profit,
        strategy := position.strategy, trade_type := position.trade_type }
    { s with balance := s.balance + current_value,
             trades := trade :: s.trades,
             positions := dictDel s.positions key }

/-- The per-position body of `TradingBot._update_positions` (lines 1034-1057):
re-derive the current price and recompute
`unrealized_pnl = size * (current_price/entry_price) - size`.
`newPrice = none` models the market being absent from the snapshot or price
extraction returning `(None, None)`, in which case the position is skipped
(left stale) rather than defaulted. -/
def updatePositionPrice (position : TradingPosition) (newPrice : Option ℚ) :
    TradingPosition :=
  match newPrice with
  | none => position
  | some current_price =>
    let current_value := position.size * (current_price / position.entry_price)
    { position with current_price := current_price,
                    unrealized_pnl := current_value - position.size }

/-- `TradingBot._update_positions` over the whole positions dict; `priceLookup`
abstracts the market-snapshot lookup plus `_get_outcome_prices` plus the
Yes/No outcome selection for each position key. -/
def update_positions (s : TradingBotState) (priceLookup : String → Option ℚ) :
    TradingBotState :=
  { s with positions :=
      s.positions.map fun kv => (kv.1, updatePositionPrice kv.2 (priceLookup kv.1)) }

/-- Python truthiness of the `Optional[float]` profit field: `None` and `0.0`
are falsy. -/
def profitTruthy : Option ℚ → Bool
  | none => false
  | some p => p != 0

/-- Sum of realized profits over completed trades, as computed in
`get_stats`/`_update_pnl_history`: trades whose `profit` is not `None`. -/
def realizedSum (trades : List SimulatedTrade) : ℚ :=
  ((trades.filter fun t => t.profit.isSome).map fun t => t.profit.getD 0).sum

/-- Sum of the `unrealized_pnl` fields of the open positions. -/
def unrealizedSum (positions : List (String × TradingPosition)) : ℚ :=
  (positions.map fun kv => kv.2.unrealized_pnl).sum

/-- Sum of the committed sizes of the open positions. -/
def sumSizes (positions : List (String × TradingPosition)) : ℚ :=
  (positions.map fun kv => kv.2.size).sum

/-- Current value of the open positions:
`Σ size * (current_price / entry_price)`. -/
def positionsValue (positions : List (String × TradingPosition)) : ℚ :=
  (positions.map fun kv =>
    kv.2.size * (kv.2.current_price / kv.2.entry_price)).sum

/-- The dictionary returned by `TradingBot.get_stats` (lines 1956-1991).
The `round(_, 2)` display rounding is omitted; all quantities are the exact
values the source rounds for display. -/
structure TradingStats where
  balance : ℚ
  initialBalance : ℚ
  totalProfit : ℚ
  realizedProfit : ℚ
  unrealizedProfit : ℚ
  netWorth : ℚ
  totalTrades : Nat
  winningTrades : Nat
  losingTrades : Nat
  activePositions : Nat
  winRate : ℚ
deriving Repr, DecidableEq

/-- `TradingBot.get_stats` (lines 1956-1991).  Note the Python truthiness in
the winning/losing filters: `t.profit and t.profit > 0` and
`t.profit and t.profit <= 0` — a profit of exactly `0.0` is falsy, so a
zero-profit SELL lands in neither list. -/
def get_stats (s : TradingBotState) : TradingStats :=
  let completed_trades := s.trades.filter fun t => t.profit.isSome
  let winning_trades := completed_trades.filter fun t =>
    profitTruthy t.profit && decide (0 < t.profit.getD 0)
  let losing_trades := completed_trades.filter fun t =>
    profitTruthy t.profit && decide (t.profit.getD 0 ≤ 0)
  let realized_pnl := realizedSum s.trades
  let unrealized_pnl := unrealizedSum s.positions
  let total_pnl := realized_pnl + unrealized_pnl
  let net_worth := s.initial_balance + total_pnl
  { balance := s.balance,
    initialBalance := s.initial_balance,
    totalProfit := total_pnl,
    realizedProfit := realized_pnl,
    unrealizedProfit := unrealized_pnl,
    netWorth := net_worth,
    totalTrades := completed_trades.length,
    winningTrades := winning_trades.length,
    losingTrades := losing_trades.length,
    activePositions := s.positions.length,
    winRate := if completed_trades.length = 0 then 0
               else (winning_trades.length : ℚ) / (completed_trades.length : ℚ) * 100 }

/-- The arbitrage-detection step of `TradingBot.analyze_market`
(lines 473-480): the opportunity is `(1 - (price_yes + price_no)) * 100`
when the price sum is under the fee-adjusted `0.98` threshold and that
profit exceeds `0.5`; otherwise absent. -/
def arbitrage_detection (price_yes price_no : ℚ) : Option ℚ :=
  let price_sum := price_yes + price_no
  if price_sum < 0.98 then
    let arbitrage_profit := (1 - price_sum) * 100
    if arbitrage_profit > 0.5 then some arbitrage_profit else none
  else none

/-- The branch of `TradingBot.analyze_market` taken when `_get_outcome_prices`
returned `(None, None)` (lines 416-445): the source substitutes the default
prices `0.5 / 0.5` and builds a degenerate analysis with a minimal
volume/liquidity score, which the trading loop then stores into
`market_analyses` (line 953), overwriting any prior analysis for the id. -/
def analyze_market_no_prices (market_id : String)
    (volume liquidity volume_24h : ℚ) : MarketAnalysis :=
  let price_yes : ℚ := 0.5
  let price_no : ℚ := 0.5
  let volume_factor := if 0 < volume_24h then min 1 (volume_24h / 50000) else 0.3
  let liquidity_score := if 0 < liquidity then min 20 (liquidity / 1000) else 10
  let base_score : ℚ := 5
  let minimal_score := base_score + volume_factor * 30 + liquidity_score
  { market_id := market_id, volume := volume, liquidity := liquidity,
    trend := 0, momentum := 0, sentiment := 0.5,
    score := minimal_score, arbitrage_opportunity := none, spread := 0,
    price_yes := price_yes, price_no := price_no, volume_24h := volume_24h,
    liquidity_depth := liquidity,
    volume_score := volume_factor * 50 + liquidity_score * 1.5,
    context_score := minimal_score }

/-- The membership test `outcome in ['Yes', 'YES', 'yes']` used throughout
the source. -/
def isYesOutcome (outcome : String) : Bool :=
  outcome = "Yes" || outcome = "YES" || outcome = "yes"

/-- The first price candidate of the directional branch of
`TradingBot._execute_opportunity` (lines 1568-1584): the freshly extracted
price pair when extraction succeeded, falling back to the analysis prices
when it returned `(None, None)` (the analysis price fields are plain floats
defaulting to `0.5`, never `None`, so the "analysis prices also None" branch
of the source is dead code), selected by the outcome side. -/
def candidate_price (analysis : MarketAnalysis) (outcome : String)
    (fresh_prices : Option (ℚ × ℚ)) : ℚ :=
  let prices := match fresh_prices with
    | some pq => pq
    | none => (analysis.price_yes, analysis.price_no)
  if isYesOutcome outcome then prices.1 else prices.2

/-- The analysis-price fallback used by the range check of
`TradingBot._execute_opportunity` (lines 1599-1604). -/
def fallback_price (analysis : MarketAnalysis) (outcome : String) : ℚ :=
  if isYesOutcome outcome then analysis.price_yes else analysis.price_no

/-- The price-selection logic of the directional branch of
`TradingBot._execute_opportunity` (lines 1568-1619): the candidate price,
then the range check — band `[0.10, 0.99]` for ordinary strategies, loosened
to `[0.01, 0.99]` for `catch_all` — with a second fallback to the analysis
price when the first candidate is out of range.  `none` means the branch
returns without trading. -/
def effective_trade_price (analysis : MarketAnalysis) (outcome strategy : String)
    (fresh_prices : Option (ℚ × ℚ)) : Option ℚ :=
  let price0 := candidate_price analysis outcome fresh_prices
  let min_price : ℚ := if strategy = "catch_all" then 0.01 else 0.10
  let max_price : ℚ := 0.99
  if price0 < min_price ∨ price0 > max_price then
    let fallback := fallback_price analysis outcome
    if strategy = "catch_all" then
      if 0.01 ≤ fallback ∧ fallback ≤ 0.99 then some fallback else none
    else
      if fallback < min_price ∨ fallback > max_price then none else some fallback
  else some price0

/-- The directional (non-arbitrage) branch of
`TradingBot._execute_opportunity` (lines 1564-1678): effective-price
selection, the duplicate-position and profit-margin guards, position sizing
(Claude-supplied percentage clamped to `[0.01, 0.02]` when the strategy is
`claude_ai` and the percentage is truthy, otherwise score-tiered 1-2%,
bounded into `[0.10, balance * 0.02]`), and the call into `_open_position`.
The numeric interpolation inside the generated `reason` strings is not
modelled (the reason text carries no ledger semantics). -/
def execute_opportunity_directional (s : TradingBotState) (market_title : String)
    (analysis : MarketAnalysis) (outcome strategy trade_type : String)
    (position_size_pct : Option ℚ) (fresh_prices : Option (ℚ × ℚ)) (now : ℚ) :
    TradingBotState :=
  match effective_trade_price analysis outcome strategy fresh_prices with
  | none => s
  | some price =>
    let key := positionKey analysis.market_id outcome
    if (dictGet s.positions key).isSome then s
    else
      let max_profit_per_share := if isYesOutcome outcome then 1 - price else price
      if max_profit_per_share ≤ 0 then s
      else
        let position_pct : ℚ :=
          if strategy = "claude_ai" ∧ position_size_pct.getD 0 ≠ 0 then
            max 0.01 (min (position_size_pct.getD 0) 0.02)
          else if |analysis.score| > 20 then 0.02
          else if |analysis.score| > 10 then 0.015
          else 0.01
        let position_size0 := s.balance * position_pct
        let position_size := max 0.10 (min position_size0 (s.balance * 0.02))
        let reason :=
          if strategy = "claude_ai" then "Claude AI"
          else if trade_type = "scalp" then "Volume Scalp"
          else if strategy = "catch_all" then "Catch-All"
          else strategy
        if position_size ≤ s.balance ∧ 0.10 ≤ position_size then
          open_position s analysis.market_id market_title outcome price
            position_size strategy reason trade_type now
        else if 0.10 ≤ s.balance then
          open_position s analysis.market_id market_title outcome price
            0.10 strategy (reason ++ " (min size)") trade_type now
        else s

/-- The a-priori exit decision record built by
`TradingBot._check_exit_conditions` for one position. -/
structure ExitDecision where
  should_exit : Bool
  exit_reason : String
deriving Repr, DecidableEq

/-- The exit-rule chain of `TradingBot._check_exit_conditions`
(lines 1700-1784), for one open position: scalp band first (take profit
above +2%, stop loss below -0.8%, timeout after 7200 seconds), then the
strategy-specific bands, then the universal fallback band (+12% / -6%).
`held_seconds` stands for `(datetime.now() - position.entry_time)
.total_seconds()`; the interpolated price inside the mean-reversion reason
string is not modelled. -/
def check_exit_conditions (strategy trade_type : String)
    (entry_price current_price held_seconds analysis_price_yes analysis_price_no : ℚ) :
    ExitDecision :=
  let profit_pct := (current_price - entry_price) / entry_price
  let d : ExitDecision :=
    if trade_type = "scalp" then
      if profit_pct > 0.02 then ⟨true, "Scalp profit target: +2%"⟩
      else if profit_pct < -0.008 then ⟨true, "Scalp stop loss: -0.8%"⟩
      else if held_seconds > 7200 then ⟨true, "Scalp timeout: 2 hours"⟩
      else ⟨false, ""⟩
    else if strategy = "arbitrage" then
      if analysis_price_yes + analysis_price_no ≥ 0.99 then
        ⟨true, "Arbitrage closed: Market corrected"⟩
      else if profit_pct > 0.03 then
        ⟨true, "Take profit: Arbitrage profit target met"⟩
      else ⟨false, ""⟩
    else if strategy = "context_swing" then
      if profit_pct > 0.10 then ⟨true, "Context swing profit: +10%"⟩
      else if profit_pct < -0.06 then ⟨true, "Context swing stop: -6%"⟩
      else ⟨false, ""⟩
    else if strategy = "momentum" then
      if profit_pct > 0.08 then ⟨true, "Take profit: Momentum target reached"⟩
      else if profit_pct < -0.04 then ⟨true, "Stop loss: Momentum reversed"⟩
      else ⟨false, ""⟩
    else if strategy = "mean_reversion" then
      let price_from_equilibrium := |analysis_price_yes - 0.5|
      let entry_from_equilibrium := |entry_price - 0.5|
      if price_from_equilibrium < entry_from_equilibrium * 0.7 then
        ⟨true, "Mean reversion: Price moved toward equilibrium"⟩
      else if profit_pct > 0.10 then
        ⟨true, "Take profit: Mean reversion target met"⟩
      else if profit_pct < -0.05 then
        ⟨true, "Stop loss: Mean reversion failed"⟩
      else ⟨false, ""⟩
    else if strategy = "volume_breakout" then
      if profit_pct > 0.07 then ⟨true, "Take profit: Breakout target reached"⟩
      else if profit_pct < -0.03 then ⟨true, "Stop loss: Breakout failed"⟩
      else ⟨false, ""⟩
    else ⟨false, ""⟩
  if d.should_exit then d
  else if profit_pct > 0.12 then ⟨true, "Take profit: Strong profit target"⟩
  else if profit_pct < -0.06 then ⟨true, "Stop loss: Risk limit reached"⟩
  else ⟨false, ""⟩

/-- The three ledger mutations the scheduling loops perform against the
shared state: an open (via `_open_position`), a close by position key (the
caller looks the position up in the dict and hands it to `_close_position`,
as `_check_exit_conditions` does), and a price-refresh pass
(`_update_positions`). -/
inductive LedgerOp where
  | openOp (market_id market_title outcome : String) (price size : ℚ)
      (strategy reason trade_type : String) (now : ℚ)
  | closeOp (key : String) (current_price : ℚ) (market_title reason : String)
  | updateOp (priceLookup : String → Option ℚ)

/-- Apply one ledger operation to the state. -/
def applyOp (s : TradingBotState) : LedgerOp → TradingBotState
  | .openOp market_id market_title outcome price size strategy reason trade_type now =>
      open_position s market_id market_title outcome price size strategy reason
        trade_type now
  | .closeOp key current_price market_title reason =>
      match dictGet s.positions key with
      | none => s
      | some position => close_position s position current_price market_title reason
  | .updateOp priceLookup => update_positions s priceLookup

/-- The sanity conditions under which the source invokes the ledger
operations: every open carries a positive price (the call sites enforce the
tradable band, whose lower end is at least `0.01`), a non-negative size
(sizing is bounded below by `0.10`), and a key not currently open (the call
sites skip when `position_key in self.positions`); every close carries a
non-negative exit price (price extraction only accepts prices in `(0,1)`). -/
def opOK (s : TradingBotState) : LedgerOp → Prop
  | .openOp market_id _ outcome price size _ _ _ _ =>
      0 < price ∧ 0 ≤ size ∧
      dictGet s.positions (positionKey market_id outcome) = none
  | .closeOp _ current_price _ _ => 0 ≤ current_price
  | .updateOp _ => True

/-- States reachable from a fresh bot by ledger operations invoked the way
the source invokes them. -/
inductive ReachableOK (b0 : ℚ) : TradingBotState → Prop
  | init : ReachableOK b0 (initState b0)
  | step {s : TradingBotState} (op : LedgerOp) :
      ReachableOK b0 s → opOK s op → ReachableOK b0 (applyOp s op)

/-- The inductive ledger invariant: the initial balance is remembered, the
position keys are distinct and coherent with the stored fields, every
position carries a non-negative size, a positive entry price and a
`unrealized_pnl` field consistent with its current price, and the balance
equation `balance + Σ committed sizes = initial + Σ realized profit`
holds. -/
def LedgerInv (b0 : ℚ) (s : TradingBotState) : Prop :=
  s.initial_balance = b0 ∧
  (s.positions.map Prod.fst).Nodup ∧
  (∀ kv ∈ s.positions,
     0 ≤ kv.2.size ∧ 0 < kv.2.entry_price ∧
     kv.1 = positionKey kv.2.market_id kv.2.outcome ∧
     kv.2.unrealized_pnl =
       kv.2.size * (kv.2.current_price / kv.2.entry_price) - kv.2.size) ∧
  s.balance + sumSizes s.positions = b0 + realizedSum s.trades

/-! ### Association-list (Python dict) lemmas -/

theorem dictGet_dictSet_self {α : Type} (ps : List (String × α)) (key : String)
    (v : α) : dictGet (dictSet ps key v) key = some v := by
  induction ps with
  | nil => simp [dictGet, dictSet]
  | cons kv rest ih =>
      by_cases h : kv.1 = key <;> simp [dictGet, dictSet, h, ih]

theorem dictGet_eq_none_iff {α : Type} {ps : List (String × α)} {key : String} :
    dictGet ps key = none ↔ key ∉ ps.map Prod.fst := by
  induction ps with
  | nil => simp [dictGet]
  | cons kv rest ih =>
      by_cases h : kv.1 = key
      · simp [dictGet, h]
      · have h' : ¬key = kv.1 := fun hh => h hh.symm
        simp [dictGet, h, h', ih]

theorem dictGet_mem {α : Type} {ps : List (String × α)} {key : String} {v : α}
    (h : dictGet ps key = some v) : (key, v) ∈ ps := by
  induction ps with
  | nil => simp [dictGet] at h
  | cons kv rest ih =>
      rw [dictGet] at h
      by_cases hk : kv.1 = key
      · rw [if_pos hk] at h
        obtain ⟨k1, k2⟩ := kv
        obtain rfl : k1 = key := hk
        obtain rfl : k2 = v := Option.some.inj h
        exact List.mem_cons_self _ _
      · rw [if_neg hk] at h
        exact List.mem_cons_of_mem _ (ih h)

theorem dictSet_of_get_none {α : Type} {ps : List (String × α)} {key : String}
    (h : dictGet ps key = none) (v : α) : dictSet ps key v = ps ++ [(key, v)] := by
  induction ps with
  | nil => simp [dictSet]
  | cons kv rest ih =>
      by_cases hk : kv.1 = key
      · simp [dictGet, hk] at h
      · simp only [dictGet, hk, if_neg hk, if_false] at h ⊢
        simp [dictSet, hk, ih h]

theorem dictDel_of_get_none {α : Type} {ps : List (String × α)} {key : String}
    (h : dictGet ps key = none) : dictDel ps key = ps := by
  induction ps with
  | nil => simp [dictDel]
  | cons kv rest ih =>
      by_cases hk : kv.1 = key
      · simp [dictGet, hk] at h
      · simp only [dictGet, hk, if_neg hk, if_false] at h ⊢
        simp [dictDel, hk, ih h]

theorem dictGet_dictDel_self {α : Type} (ps : List (String × α)) (key : String) :
    dictGet (dictDel ps key) key = none := by
  induction ps with
  | nil => simp [dictDel, dictGet]
  | cons kv rest ih =>
      by_cases hk : kv.1 = key <;> simp [dictDel, dictGet, hk, ih]

theorem mem_dictDel {α : Type} {ps : List (String × α)} {key : String}
    {kv : String × α} (h : kv ∈ dictDel ps key) : kv ∈ ps := by
  induction ps with
  | nil => simp [dictDel] at h
  | cons hd rest ih =>
      by_cases hk : hd.1 = key
      · simp only [dictDel, if_pos hk] at h
        exact List.mem_cons_of_mem _ (ih h)
      · simp only [dictDel, if_neg hk] at h
        rcases List.mem_cons.mp h with h | h
        · exact h ▸ List.mem_cons_self _ _
        · exact List.mem_cons_of_mem _ (ih h)

theorem keys_dictDel_sublist {α : Type} (ps : List (String × α)) (key : String) :
    ((dictDel ps key).map Prod.fst).Sublist (ps.map Prod.fst) := by
  induction ps with
  | nil => simp [dictDel]
  | cons hd rest ih =>
      by_cases hk : hd.1 = key
      · simp only [dictDel, if_pos hk, List.map_cons]
        exact ih.trans (List.sublist_cons_self _ _)
      · simp only [dictDel, if_neg hk, List.map_cons]
        exact ih.cons₂ _

theorem sumSizes_dictDel {ps : List (String × TradingPosition)} {key : String}
    {pos : TradingPosition} (hnd : (ps.map Prod.fst).Nodup)
    (h : dictGet ps key = some pos) :
    sumSizes (dictDel ps key) = sumSizes ps - pos.size := by
  induction ps with
  | nil => simp [dictGet] at h
  | cons hd rest ih =>
      simp only [List.map_cons, List.nodup_cons] at hnd
      rw [dictGet] at h
      by_cases hk : hd.1 = key
      · rw [if_pos hk] at h
        have hv : hd.2 = pos := Option.some.inj h
        have hrest : dictGet rest key = none := by
          rw [dictGet_eq_none_iff]
          rw [hk] at hnd
          exact hnd.1
        rw [dictDel, if_pos hk, dictDel_of_get_none hrest, ← hv]
        simp only [sumSizes, List.map_cons, List.sum_cons]
        ring
      · rw [if_neg hk] at h
        rw [dictDel, if_neg hk]
        have hih := ih hnd.2 h
        simp only [sumSizes, List.map_cons, List.sum_cons] at hih ⊢
        linarith

/-! ### Sum lemmas -/

theorem sumSizes_append_single (ps : List (String × TradingPosition))
    (key : String) (pos : TradingPosition) :
    sumSizes (ps ++ [(key, pos)]) = sumSizes ps + pos.size := by
  simp [sumSizes]

theorem realizedSum_cons_none (t : SimulatedTrade) (ts : List SimulatedTrade)
    (h : t.profit = none) : realizedSum (t :: ts) = realizedSum ts := by
  simp [realizedSum, List.filter_cons, h]

theorem realizedSum_cons_some (t : SimulatedTrade) (ts : List SimulatedTrade)
    {p : ℚ} (h : t.profit = some p) : realizedSum (t :: ts) = p + realizedSum ts := by
  simp [realizedSum, List.filter_cons, h]

theorem positionsValue_eq_sumSizes_add_unrealizedSum
    {ps : List (String × TradingPosition)}
    (h : ∀ kv ∈ ps, kv.2.unrealized_pnl =
      kv.2.size * (kv.2.current_price / kv.2.entry_price) - kv.2.size) :
    positionsValue ps = sumSizes ps + unrealizedSum ps := by
  induction ps with
  | nil => simp [positionsValue, sumSizes, unrealizedSum]
  | cons hd rest ih =>
      have hhd := h hd (List.mem_cons_self _ _)
      have hrest := ih fun kv hkv => h kv (List.mem_cons_of_mem _ hkv)
      simp only [positionsValue, sumSizes, unrealizedSum, List.map_cons,
        List.sum_cons] at hrest ⊢
      rw [hhd]
      linarith

theorem updatePositionPrice_size (p : TradingPosition) (o : Option ℚ) :
    (updatePositionPrice p o).size = p.size := by
  cases o <;> rfl

theorem updatePositionPrice_entry_price (p : TradingPosition) (o : Option ℚ) :
    (updatePositionPrice p o).entry_price = p.entry_price := by
  cases o <;> rfl

theorem updatePositionPrice_market_id (p : TradingPosition) (o : Option ℚ) :
    (updatePositionPrice p o).market_id = p.market_id := by
  cases o <;> rfl

theorem updatePositionPrice_outcome (p : TradingPosition) (o : Option ℚ) :
    (updatePositionPrice p o).outcome = p.outcome := by
  cases o <;> rfl

theorem sumSizes_update (ps : List (String × TradingPosition))
    (f : String → Option ℚ) :
    sumSizes (ps.map fun kv => (kv.1, updatePositionPrice kv.2 (f kv.1))) =
      sumSizes ps := by
  induction ps with
  | nil => rfl
  | cons hd rest ih =>
      simp [sumSizes, updatePositionPrice_size] at ih ⊢
      exact ih

theorem keys_update (ps : List (String × TradingPosition))
    (f : String → Option ℚ) :
    (ps.map fun kv => (kv.1, updatePositionPrice kv.2 (f kv.1))).map Prod.fst =
      ps.map Prod.fst := by
  induction ps with
  | nil => rfl
  | cons hd rest ih => simp [ih]

/-! ### Characterizations of the open/close state transformers -/

theorem open_position_of_gt {s : TradingBotState}
    {market_id market_title outcome : String} {price size : ℚ}
    {strategy reason trade_type : String} {now : ℚ} (h : size > s.balance) :
    open_position s market_id market_title outcome price size strategy reason
      trade_type now = s := by
  simp only [open_position, if_pos h]

theorem open_position_of_le {s : TradingBotState}
    {market_id market_title outcome : String} {price size : ℚ}
    {strategy reason trade_type : String} {now : ℚ} (h : ¬size > s.balance) :
    open_position s market_id market_title outcome price size strategy reason
      trade_type now =
      { s with
        positions := dictSet s.positions (positionKey market_id outcome)
          { market_id := market_id, market_title := market_title,
            outcome := outcome, entry_price := price, size := size,
            entry_time := now, current_price := price, unrealized_pnl := 0,
            strategy := strategy, trade_type := trade_type },
        balance := s.balance - size,
        trades :=
          { market_id := market_id, market_title := market_title,
            action := "BUY", outcome := outcome, price := price, size := size,
            reason := reason, profit := none, strategy := strategy,
            trade_type := trade_type } :: s.trades } := by
  simp only [open_position, if_neg h]

theorem close_position_of_absent {s : TradingBotState}
    {position : TradingPosition} {current_price : ℚ} {market_title reason : String}
    (h : dictGet s.positions (positionKey position.market_id position.outcome) =
      none) :
    close_position s position current_price market_title reason = s := by
  simp only [close_position, h, Option.isNone_none, if_pos]

theorem close_position_of_present {s : TradingBotState}
    {position : TradingPosition} {current_price : ℚ} {market_title reason : String}
    (h : dictGet s.positions (positionKey position.market_id position.outcome) ≠
      none) :
    close_position s position current_price market_title reason =
      { s with
        balance := s.balance +
          position.size * (current_price / position.entry_price),
        trades :=
          { market_id := position.market_id, market_title := market_title,
            action := "SELL", outcome := position.outcome,
            price := current_price, size := position.size, reason := reason,
            profit := some (position.size * (current_price / position.entry_price)
              - position.size),
            strategy := position.strategy,
            trade_type := position.trade_type } :: s.trades,
        positions := dictDel s.positions
          (positionKey position.market_id position.outcome) } := by
  simp only [close_position]
  rw [if_neg (by simpa [Option.isNone_iff_eq_none] using h)]

/-! ### The inductive ledger invariant -/

theorem ledgerInv_init (b0 : ℚ) : LedgerInv b0 (initState b0) := by
  refine ⟨rfl, by simp [initState], by simp [initState], ?_⟩
  simp [initState, sumSizes, realizedSum]

theorem ledgerInv_step {b0 : ℚ} {s : TradingBotState} {op : LedgerOp}
    (hInv : LedgerInv b0 s) (hok : opOK s op) : LedgerInv b0 (applyOp s op) := by
  obtain ⟨hinit, hnd, hpos, hbal⟩ := hInv
  cases op with
  | openOp market_id market_title outcome price size strategy reason trade_type now =>
      obtain ⟨hp, hs, hfresh⟩ := hok
      by_cases hgt : size > s.balance
      · simp only [applyOp, open_position_of_gt hgt]
        exact ⟨hinit, hnd, hpos, hbal⟩
      · simp only [applyOp, open_position_of_le hgt]
        rw [dictSet_of_get_none hfresh]
        have hkey : positionKey market_id outcome ∉ s.positions.map Prod.fst :=
          dictGet_eq_none_iff.mp hfresh
        refine ⟨hinit, ?_, ?_, ?_⟩
        · rw [List.map_append, List.nodup_append]
          refine ⟨hnd, by simp, ?_⟩
          intro a ha hb
          simp only [List.map_cons, List.map_nil, List.mem_singleton] at hb
          rw [hb] at ha
          exact hkey ha
        · intro kv hkv
          rcases List.mem_append.mp hkv with hkv | hkv
          · exact hpos kv hkv
          · simp only [List.mem_singleton] at hkv
            subst hkv
            refine ⟨hs, hp, rfl, ?_⟩
            rw [div_self (ne_of_gt hp), mul_one, sub_self]
        · rw [sumSizes_append_single, realizedSum_cons_none _ _ rfl]
          show s.balance - size + (sumSizes s.positions + size) =
            b0 + realizedSum s.trades
          linarith [hbal]
  | closeOp key current_price market_title reason =>
      cases hget : dictGet s.positions key with
      | none =>
          simp only [applyOp, hget]
          exact ⟨hinit, hnd, hpos, hbal⟩
      | some position =>
          have hmem := dictGet_mem hget
          obtain ⟨hsz, hep, hkeyco, hpnl⟩ := hpos _ hmem
          have hk2 : positionKey position.market_id position.outcome = key :=
            hkeyco.symm
          have hpresent : dictGet s.positions
              (positionKey position.market_id position.outcome) ≠ none := by
            rw [hk2, hget]
            simp
          simp only [applyOp, hget]
          rw [close_position_of_present hpresent]
          refine ⟨hinit, ?_, ?_, ?_⟩
          · exact (keys_dictDel_sublist s.positions _).nodup hnd
          · intro kv hkv
            exact hpos kv (mem_dictDel hkv)
          · rw [sumSizes_dictDel hnd (by rw [hk2]; exact hget),
              realizedSum_cons_some _ _ rfl]
            linarith [hbal]
  | updateOp f =>
      simp only [applyOp, update_positions]
      refine ⟨hinit, ?_, ?_, ?_⟩
      · rw [keys_update]
        exact hnd
      · intro kv hkv
        rcases List.mem_map.mp hkv with ⟨kv0, hkv0, rfl⟩
        obtain ⟨hsz, hep, hkeyco, hpnl⟩ := hpos kv0 hkv0
        cases hf : f kv0.1 with
        | none =>
            simp only [updatePositionPrice, hf]
            exact ⟨hsz, hep, hkeyco, hpnl⟩
        | some cp =>
            simp only [updatePositionPrice, hf]
            refine ⟨hsz, hep, hkeyco, ?_⟩
            trivial
      · rw [sumSizes_update]
        exact hbal

theorem ledgerInv_reachable {b0 : ℚ} {s : TradingBotState}
    (h : ReachableOK b0 s) : LedgerInv b0 s := by
  induction h with
  | init => exact ledgerInv_init b0
  | step op hre hok ih => exact ledgerInv_step ih hok

/-! ### Claim theorems -/

/-- C2: Ledger consistency invariant.  At every observation point between
operations — any state reachable from a fresh bot by open, close and
price-update operations invoked under the source's call-site sanity
conditions (positive entry price, non-negative size and fresh key on open;
non-negative exit price on close) — the `netWorth` reported by `get_stats`
(`initial_balance` + realized + unrealized P&L) equals `balance` plus the
current value `Σ size * (current_price / entry_price)` of the open
positions. -/
theorem net_worth_eq_balance_plus_open_value {b0 : ℚ} {s : TradingBotState}
    (h : ReachableOK b0 s) :
    (get_stats s).netWorth = s.balance + positionsValue s.positions := by
  obtain ⟨hinit, hnd, hpos, hbal⟩ := ledgerInv_reachable h
  have hval := positionsValue_eq_sumSizes_add_unrealizedSum
    fun kv hk => (hpos kv hk).2.2.2
  simp only [get_stats, hinit, hval]
  linarith [hbal]

/-- Witness for C2 at a concrete two-operation history (open at 0.5 for 40,
then close at 0.6). -/
theorem net_worth_eq_balance_plus_open_value_witness :
    (get_stats (applyOp
        (applyOp (initState 2000)
          (.openOp "m1" "T" "Yes" 0.5 40 "momentum" "r" "swing" 0))
        (.closeOp "m1-Yes" 0.6 "T" "exit"))).netWorth =
      (applyOp (applyOp (initState 2000)
          (.openOp "m1" "T" "Yes" 0.5 40 "momentum" "r" "swing" 0))
        (.closeOp "m1-Yes" 0.6 "T" "exit")).balance +
      positionsValue (applyOp (applyOp (initState 2000)
          (.openOp "m1" "T" "Yes" 0.5 40 "momentum" "r" "swing" 0))
        (.closeOp "m1-Yes" 0.6 "T" "exit")).positions :=
  net_worth_eq_balance_plus_open_value
    (ReachableOK.step _
      (ReachableOK.step _ ReachableOK.init ⟨by norm_num, by norm_num, rfl⟩)
      (by norm_num [opOK]))

/-- C3: for every sequence of open/close (and price-update) operations
starting from a non-negative initial balance, the balance never goes
negative: the open debit is guarded by the `size > balance` check and the
close only credits `size * (exit_price / entry_price) ≥ 0`. -/
theorem balance_never_negative {b0 : ℚ} {s : TradingBotState}
    (h0 : 0 ≤ b0) (h : ReachableOK b0 s) : 0 ≤ s.balance := by
  induction h with
  | init => exact h0
  | @step s op hre hok ih =>
      have hinv := ledgerInv_reachable hre
      cases op with
      | openOp market_id market_title outcome price size strategy reason trade_type now =>
          by_cases hgt : size > s.balance
          · simpa [applyOp, open_position_of_gt hgt] using ih
          · simp only [applyOp, open_position_of_le hgt]
            show 0 ≤ s.balance - size
            have := not_lt.mp hgt
            linarith
      | closeOp key current_price market_title reason =>
          cases hget : dictGet s.positions key with
          | none => simpa [applyOp, hget] using ih
          | some position =>
              obtain ⟨hsz, hep, _, _⟩ := hinv.2.2.1 _ (dictGet_mem hget)
              by_cases hpr : dictGet s.positions
                  (positionKey position.market_id position.outcome) = none
              · simpa [applyOp, hget, close_position_of_absent hpr] using ih
              · simp only [applyOp, hget, close_position_of_present hpr]
                show 0 ≤ s.balance +
                  position.size * (current_price / position.entry_price)
                have hcr : 0 ≤ position.size *
                    (current_price / position.entry_price) :=
                  mul_nonneg hsz (div_nonneg hok hep.le)
                linarith
      | updateOp f => simpa [applyOp, update_positions] using ih

/-- Witness for C3: a concrete open-then-losing-close history from a
non-negative starting balance. -/
theorem balance_never_negative_witness :
    0 ≤ (applyOp (applyOp (initState 500)
        (.openOp "m2" "T" "No" 0.2 10 "mean_reversion" "r" "swing" 0))
      (.closeOp "m2-No" 0.1 "T" "stop")).balance :=
  balance_never_negative (by norm_num)
    (ReachableOK.step _
      (ReachableOK.step _ ReachableOK.init ⟨by norm_num, by norm_num, rfl⟩)
      (by norm_num [opOK]))

/-- C5: `_open_position` is a silent no-op exactly when `size > balance`;
otherwise it debits the balance by exactly `size`, inserts a position with
`entry_price` equal to the given price and the given size, and prepends a
BUY `SimulatedTrade` whose profit field is `None`. -/
theorem open_position_spec (s : TradingBotState)
    (market_id market_title outcome : String) (price size : ℚ)
    (strategy reason trade_type : String) (now : ℚ) :
    (size > s.balance →
      open_position s market_id market_title outcome price size strategy reason
        trade_type now = s) ∧
    (size ≤ s.balance →
      (open_position s market_id market_title outcome price size strategy reason
          trade_type now).balance = s.balance - size ∧
      dictGet (open_position s market_id market_title outcome price size strategy
          reason trade_type now).positions (positionKey market_id outcome) =
        some { market_id := market_id, market_title := market_title,
               outcome := outcome, entry_price := price, size := size,
               entry_time := now, current_price := price, unrealized_pnl := 0,
               strategy := strategy, trade_type := trade_type } ∧
      (open_position s market_id market_title outcome price size strategy reason
          trade_type now).trades =
        { market_id := market_id, market_title := market_title, action := "BUY",
          outcome := outcome, price := price, size := size, reason := reason,
          profit := none, strategy := strategy, trade_type := trade_type } ::
          s.trades) := by
  constructor
  · exact open_position_of_gt
  · intro hle
    rw [open_position_of_le (not_lt.mpr hle)]
    exact ⟨rfl, dictGet_dictSet_self _ _ _, rfl⟩

/-- Witness for C5: an over-sized open is a no-op; an affordable open debits
exactly its size. -/
theorem open_position_spec_witness :
    open_position (initState 100) "m" "T" "Yes" 0.5 200 "s" "r" "swing" 0 =
      initState 100 ∧
    (open_position (initState 100) "m" "T" "Yes" 0.5 30 "s" "r" "swing" 0).balance =
      100 - 30 :=
  ⟨(open_position_spec (initState 100) "m" "T" "Yes" 0.5 200 "s" "r" "swing" 0).1
      (by norm_num [initState]),
   ((open_position_spec (initState 100) "m" "T" "Yes" 0.5 30 "s" "r" "swing" 0).2
      (by norm_num [initState])).1⟩

/-- C6: round trip.  Opening a position of size `S` (with `0 < S ≤ balance`)
at price `P > 0` and immediately closing that same key at exit price `P`
yields a SELL trade with profit exactly `0`, returns the balance exactly to
its pre-open value, and removes the position from the open set. -/
theorem open_close_round_trip (s : TradingBotState)
    (market_id market_title outcome : String) (price size : ℚ)
    (strategy reason trade_type : String) (now : ℚ)
    (exit_title exit_reason : String)
    (_hsz : 0 < size) (hbal : size ≤ s.balance) (hp : 0 < price) :
    (applyOp (open_position s market_id market_title outcome price size strategy
        reason trade_type now)
      (.closeOp (positionKey market_id outcome) price exit_title
        exit_reason)).balance = s.balance ∧
    (applyOp (open_position s market_id market_title outcome price size strategy
        reason trade_type now)
      (.closeOp (positionKey market_id outcome) price exit_title
        exit_reason)).trades.head? = some
      { market_id := market_id, market_title := exit_title, action := "SELL",
        outcome := outcome, price := price, size := size, reason := exit_reason,
        profit := some 0, strategy := strategy, trade_type := trade_type } ∧
    dictGet (applyOp (open_position s market_id market_title outcome price size
        strategy reason trade_type now)
      (.closeOp (positionKey market_id outcome) price exit_title
        exit_reason)).positions (positionKey market_id outcome) = none := by
  rw [open_position_of_le (not_lt.mpr hbal)]
  simp only [applyOp, dictGet_dictSet_self]
  rw [close_position_of_present (by rw [dictGet_dictSet_self]; simp)]
  refine ⟨?_, ?_, ?_⟩
  · show s.balance - size + size * (price / price) = s.balance
    rw [div_self (ne_of_gt hp), mul_one]
    ring
  · simp [div_self (ne_of_gt hp)]
  · exact dictGet_dictDel_self _ _

/-- Witness for C6 at size 25, price 0.4 from a balance of 1000. -/
theorem open_close_round_trip_witness :
    (applyOp (open_position (initState 1000) "m" "T" "Yes" 0.4 25 "s" "r" "swing" 0)
      (.closeOp (positionKey "m" "Yes") 0.4 "T2" "rt")).balance =
        (initState 1000).balance ∧
    (applyOp (open_position (initState 1000) "m" "T" "Yes" 0.4 25 "s" "r" "swing" 0)
      (.closeOp (positionKey "m" "Yes") 0.4 "T2" "rt")).trades.head? = some
      { market_id := "m", market_title := "T2", action := "SELL",
        outcome := "Yes", price := 0.4, size := 25, reason := "rt",
        profit := some 0, strategy := "s", trade_type := "swing" } ∧
    dictGet (applyOp (open_position (initState 1000) "m" "T" "Yes" 0.4 25 "s" "r"
        "swing" 0)
      (.closeOp (positionKey "m" "Yes") 0.4 "T2" "rt")).positions
      (positionKey "m" "Yes") = none :=
  open_close_round_trip (initState 1000) "m" "T" "Yes" 0.4 25 "s" "r" "swing" 0
    "T2" "rt" (by norm_num) (by norm_num [initState]) (by norm_num)

/-- C7: close is idempotent on already-closed keys — when the position key is
absent from the open-positions dict, both `_close_position` itself and the
close operation by key are complete no-ops: balance, positions and the trade
history are all unchanged. -/
theorem close_absent_key_noop (s : TradingBotState) (position : TradingPosition)
    (current_price : ℚ) (market_title reason : String)
    (h : dictGet s.positions
      (positionKey position.market_id position.outcome) = none) :
    close_position s position current_price market_title reason = s ∧
    applyOp s (.closeOp (positionKey position.market_id position.outcome)
      current_price market_title reason) = s := by
  refine ⟨close_position_of_absent h, ?_⟩
  simp only [applyOp, h]

/-- Witness for C7: a second close on a key that is no longer open (the trade
history still holds its SELL record) changes nothing. -/
theorem close_absent_key_noop_witness :
    close_position
      { balance := 100, initial_balance := 100, positions := [],
        trades := [{ market_id := "m", market_title := "T", action := "SELL",
                     outcome := "Yes", price := 0.5, size := 10, reason := "r",
                     profit := some 0, strategy := "s", trade_type := "swing" }] }
      { market_id := "m", market_title := "T", outcome := "Yes",
        entry_price := 0.5, size := 10, entry_time := 0, current_price := 0.5,
        unrealized_pnl := 0, strategy := "s", trade_type := "swing" }
      0.5 "T" "again" =
      { balance := 100, initial_balance := 100, positions := [],
        trades := [{ market_id := "m", market_title := "T", action := "SELL",
                     outcome := "Yes", price := 0.5, size := 10, reason := "r",
                     profit := some 0, strategy := "s", trade_type := "swing" }] } :=
  (close_absent_key_noop _ _ _ _ _ (by rfl)).1

/-- C8: arbitrage detection.  `analyze_market` sets `arbitrage_opportunity`
to `(1 - (price_yes + price_no)) * 100` exactly when the price sum is below
the fee-adjusted threshold `0.98` and that profit exceeds `0.5`; otherwise
it is absent.  In particular it is present (and positive: value `5`) for
prices `0.40/0.55`, and absent for `0.50/0.52`. -/
theorem arbitrage_detection_spec :
    (∀ price_yes price_no : ℚ,
      arbitrage_detection price_yes price_no =
        if price_yes + price_no < 0.98 ∧
            (1 - (price_yes + price_no)) * 100 > 0.5 then
          some ((1 - (price_yes + price_no)) * 100)
        else none) ∧
    arbitrage_detection 0.40 0.55 = some 5 ∧
    arbitrage_detection 0.50 0.52 = none := by
  refine ⟨fun price_yes price_no => ?_,
    by norm_num [arbitrage_detection], by norm_num [arbitrage_detection]⟩
  by_cases h1 : price_yes + price_no < 0.98 <;>
    by_cases h2 : (1 - (price_yes + price_no)) * 100 > 0.5 <;>
    simp [arbitrage_detection, h1, h2]

/-- C9: scalp exit rule.  For a position with `trade_type = "scalp"`, the
per-cycle evaluation flags the scalp take-profit reason when the relative
price move exceeds +2%, the scalp stop-loss reason when it is below -0.8%,
and (when neither band fired) the timeout reason when the position has been
held longer than 2 hours (7200 seconds). -/
theorem scalp_exit_rule (strategy : String)
    (entry_price current_price held_seconds
      analysis_price_yes analysis_price_no : ℚ) :
    ((current_price - entry_price) / entry_price > 0.02 →
      check_exit_conditions strategy "scalp" entry_price current_price
        held_seconds analysis_price_yes analysis_price_no =
        ⟨true, "Scalp profit target: +2%"⟩) ∧
    ((current_price - entry_price) / entry_price < -0.008 →
      check_exit_conditions strategy "scalp" entry_price current_price
        held_seconds analysis_price_yes analysis_price_no =
        ⟨true, "Scalp stop loss: -0.8%"⟩) ∧
    (¬((current_price - entry_price) / entry_price > 0.02) →
      ¬((current_price - entry_price) / entry_price < -0.008) →
      held_seconds > 7200 →
      check_exit_conditions strategy "scalp" entry_price current_price
        held_seconds analysis_price_yes analysis_price_no =
        ⟨true, "Scalp timeout: 2 hours"⟩) := by
  refine ⟨fun h1 => ?_, fun h2 => ?_, fun h1 h2 h3 => ?_⟩
  · simp [check_exit_conditions, h1]
  · have hlt : (-0.008 : ℚ) < 0.02 := by norm_num
    have h1 : ¬((current_price - entry_price) / entry_price > 0.02) := by
      intro hc
      linarith
    simp [check_exit_conditions, h1, h2]
  · simp [check_exit_conditions, h1, h2, h3]

/-- Witness for C9: the spec's two concrete cases — entry 1.00 and current
1.021 flags the take-profit reason, current 0.991 flags the stop-loss
reason. -/
theorem scalp_exit_rule_witness :
    check_exit_conditions "volume_scalp" "scalp" 1 1.021 0 0.5 0.5 =
      ⟨true, "Scalp profit target: +2%"⟩ ∧
    check_exit_conditions "volume_scalp" "scalp" 1 0.991 0 0.5 0.5 =
      ⟨true, "Scalp stop loss: -0.8%"⟩ :=
  ⟨(scalp_exit_rule "volume_scalp" 1 1.021 0 0.5 0.5).1 (by norm_num),
   (scalp_exit_rule "volume_scalp" 1 0.991 0 0.5 0.5).2.1 (by norm_num)⟩

/-- A history holding exactly one completed SELL trade whose realized profit
is exactly `0`, for the concrete part of C10. -/
def zeroProfitExample : TradingBotState :=
  { balance := 2000, initial_balance := 2000, positions := [],
    trades := [{ market_id := "m", market_title := "T", action := "SELL",
                 outcome := "Yes", price := 0.5, size := 10, reason := "r",
                 profit := some 0, strategy := "momentum",
                 trade_type := "swing" }] }

/-- Auxiliary counting identity behind C10: completed trades split into
winners (`profit > 0`), losers (`profit < 0`, because the Python-truthiness
filter `t.profit and t.profit <= 0` excludes an exact `0.0`) and zero-profit
trades. -/
theorem completed_length_split (trades : List SimulatedTrade) :
    (trades.filter fun t => t.profit.isSome).length =
      ((trades.filter fun t => t.profit.isSome).filter fun t =>
        profitTruthy t.profit && decide (0 < t.profit.getD 0)).length +
      ((trades.filter fun t => t.profit.isSome).filter fun t =>
        profitTruthy t.profit && decide (t.profit.getD 0 ≤ 0)).length +
      (trades.filter fun t => decide (t.profit = some 0)).length := by
  induction trades with
  | nil => rfl
  | cons t ts ih =>
      rcases hp : t.profit with _ | p
      · simp only [List.filter_cons, hp, Option.isSome_none, Bool.false_eq_true,
          if_false, decide_eq_true_eq, reduceCtorEq, if_false]
        exact ih
      · rcases lt_trichotomy p 0 with h | h | h
        · simp [List.filter_cons, hp, profitTruthy, h.ne, h.not_lt, h.le,
            Option.some.injEq] at ih ⊢
          omega
        · subst h
          simp [List.filter_cons, hp, profitTruthy] at ih ⊢
          omega
        · simp [List.filter_cons, hp, profitTruthy, h, h.ne', h.le,
            not_le.mpr h, Option.some.injEq] at ih ⊢
          omega

/-- C10: in `get_stats`, a completed SELL trade with realized profit exactly
`0` is counted in `totalTrades` but in neither `winningTrades` nor
`losingTrades` (the losing filter `t.profit and t.profit <= 0` is falsy at
`0.0`), so `winningTrades + losingTrades` can be strictly below
`totalTrades`; and `winRate` is `winningTrades / totalTrades * 100`, taken
as `0` when there are no completed trades. -/
theorem get_stats_zero_profit_spec :
    (∀ s : TradingBotState,
      (get_stats s).totalTrades =
        (get_stats s).winningTrades + (get_stats s).losingTrades +
          (s.trades.filter fun t => decide (t.profit = some 0)).length) ∧
    (∀ s : TradingBotState,
      (get_stats s).winRate =
        if (get_stats s).totalTrades = 0 then 0
        else ((get_stats s).winningTrades : ℚ) /
          ((get_stats s).totalTrades : ℚ) * 100) ∧
    (get_stats zeroProfitExample).totalTrades = 1 ∧
    (get_stats zeroProfitExample).winningTrades = 0 ∧
    (get_stats zeroProfitExample).losingTrades = 0 ∧
    (get_stats zeroProfitExample).winningTrades +
      (get_stats zeroProfitExample).losingTrades <
      (get_stats zeroProfitExample).totalTrades := by
  refine ⟨fun s => ?_, fun s => ?_, ?_, ?_, ?_, ?_⟩
  · simpa [get_stats] using completed_length_split s.trades
  · simp [get_stats]
  · simp [get_stats, zeroProfitExample]
  · simp [get_stats, zeroProfitExample, profitTruthy]
  · simp [get_stats, zeroProfitExample, profitTruthy]
  · simp [get_stats, zeroProfitExample, profitTruthy]

/-- The prior analysis stored for market "m1" before a failing extraction
cycle, used to exhibit that the degenerate default analysis overwrites it. -/
def priorAnalysisExample : MarketAnalysis :=
  { market_id := "m1", volume := 100, liquidity := 100, trend := 0.1,
    momentum := 0.2, sentiment := 0.6, score := 30,
    arbitrage_opportunity := none, spread := 0.01, price_yes := 0.3,
    price_no := 0.7, volume_24h := 100, liquidity_depth := 100,
    volume_score := 10, context_score := 12 }

/-- C1 (code bug): evaluating the code at the failing input.  When price
extraction returns `(None, None)`, `analyze_market` substitutes the default
`0.5 / 0.5` prices into a fresh degenerate analysis, the trading loop stores
it over the prior analysis for that id, and `_execute_opportunity` falls
back to those default prices and opens a BUY trade at the fabricated price
`0.5` — each of which the claim (and the spec's null-propagation rule)
forbids. -/
theorem default_prices_substituted_on_extraction_failure :
    (analyze_market_no_prices "m1" 0 0 0).price_yes = 0.5 ∧
    (analyze_market_no_prices "m1" 0 0 0).price_no = 0.5 ∧
    dictGet (dictSet [("m1", priorAnalysisExample)] "m1"
        (analyze_market_no_prices "m1" 0 0 0)) "m1" ≠ some priorAnalysisExample ∧
    ((execute_opportunity_directional (initState 2000) "T"
        (analyze_market_no_prices "m1" 0 0 0) "Yes" "momentum" "swing" none none
        0).trades.map fun t => (t.action, t.price)) = [("BUY", 0.5)] ∧
    (execute_opportunity_directional (initState 2000) "T"
        (analyze_market_no_prices "m1" 0 0 0) "Yes" "momentum" "swing" none none
        0).balance = 1960 := by
  have hm1 : ("momentum" : String) ≠ "catch_all" := by decide
  have hm2 : ("momentum" : String) ≠ "claude_ai" := by decide
  have hm3 : ("swing" : String) ≠ "scalp" := by decide
  refine ⟨by norm_num [analyze_market_no_prices],
    by norm_num [analyze_market_no_prices], ?_, ?_, ?_⟩
  · norm_num [dictGet, dictSet, analyze_market_no_prices, priorAnalysisExample]
  · norm_num [execute_opportunity_directional, effective_trade_price,
      candidate_price, fallback_price, isYesOutcome, positionKey, dictGet,
      open_position, initState, analyze_market_no_prices, abs_of_pos,
      hm1, hm2, hm3]
  · norm_num [execute_opportunity_directional, effective_trade_price,
      candidate_price, fallback_price, isYesOutcome, positionKey, dictGet,
      open_position, initState, analyze_market_no_prices, abs_of_pos,
      hm1, hm2, hm3]

/-- Analysis record feeding the C4 counterexample: neutral prices with a
score high enough for 2% sizing. -/
def catchAllAnalysisExample : MarketAnalysis :=
  { market_id := "m1", volume := 0, liquidity := 0, trend := 0, momentum := 0,
    sentiment := 0.5, score := 24, arbitrage_opportunity := none, spread := 0,
    price_yes := 0.5, price_no := 0.5, volume_24h := 0, liquidity_depth := 0,
    volume_score := 0, context_score := 0 }

/-- A ledger already holding an open position under the key `"m1-Yes"`. -/
def dupKeyStateExample : TradingBotState :=
  { balance := 100, initial_balance := 100,
    positions := [("m1-Yes",
      { market_id := "m1", market_title := "T", outcome := "Yes",
        entry_price := 0.5, size := 10, entry_time := 0, current_price := 0.5,
        unrealized_pnl := 0, strategy := "momentum", trade_type := "swing" })],
    trades := [] }

/-- C4 counterexample: the claim is false on the code.  (a) With the
`catch_all` strategy, `_execute_opportunity` opens a position at the
requested entry price `0.05`, which lies outside the claimed admissible band
`[0.10, 0.99]` — the state changes.  (b) `_open_position` called for a
`(market_id, outcome)` key that already holds a position is not a no-op: it
overwrites the stored position and debits the balance again. -/
theorem open_band_duplicate_not_noop_counterexample :
    execute_opportunity_directional (initState 2000) "T" catchAllAnalysisExample
        "Yes" "catch_all" "swing" none (some (0.05, 0.95)) 0 ≠ initState 2000 ∧
    ((dictGet (execute_opportunity_directional (initState 2000) "T"
        catchAllAnalysisExample "Yes" "catch_all" "swing" none
        (some (0.05, 0.95)) 0).positions "m1-Yes").map fun p => p.entry_price) =
      some 0.05 ∧
    ((0.05 : ℚ) < 0.10) ∧
    open_position dupKeyStateExample "m1" "T" "Yes" 0.5 10 "momentum" "r" "swing"
        0 ≠ dupKeyStateExample ∧
    (open_position dupKeyStateExample "m1" "T" "Yes" 0.5 10 "momentum" "r"
        "swing" 0).balance = 90 := by
  have hexecbal : (execute_opportunity_directional (initState 2000) "T"
      catchAllAnalysisExample "Yes" "catch_all" "swing" none (some (0.05, 0.95))
      0).balance = 1960 := by
    norm_num [execute_opportunity_directional, effective_trade_price,
      candidate_price, fallback_price, isYesOutcome, positionKey, dictGet,
      open_position, initState, catchAllAnalysisExample, abs_of_pos]
  have hopenbal : (open_position dupKeyStateExample "m1" "T" "Yes" 0.5 10
      "momentum" "r" "swing" 0).balance = 90 := by
    norm_num [open_position, dupKeyStateExample]
  refine ⟨?_, ?_, by norm_num, ?_, hopenbal⟩
  · intro h
    rw [h] at hexecbal
    norm_num [initState] at hexecbal
  · have hkey : ("m1" ++ "-" ++ "Yes" : String) = "m1-Yes" := by decide
    norm_num [execute_opportunity_directional, effective_trade_price,
      candidate_price, fallback_price, isYesOutcome, positionKey, dictGet,
      dictSet, open_position, initState, catchAllAnalysisExample, abs_of_pos,
      hkey]
  · intro h
    rw [h] at hopenbal
    norm_num [dupKeyStateExample] at hopenbal

/-- C4 (amended): the no-op guards and where they live.  `_open_position`
itself is a no-op only when `size > balance`, and on an existing key it
overwrites the stored position rather than skipping.  The price-band and
duplicate-key rejections are performed by the caller `_execute_opportunity`
(directional branch): it leaves the state unchanged when the effective price
selection yields nothing — for ordinary strategies when both the candidate
and the analysis fallback price lie outside `[0.10, 0.99]`, for `catch_all`
when both lie outside the loosened band `[0.01, 0.99]` — and when a position
already exists for the key. -/
theorem open_noop_guards :
    (∀ (s : TradingBotState) (market_id market_title outcome : String)
        (price size : ℚ) (strategy reason trade_type : String) (now : ℚ),
      size > s.balance →
        open_position s market_id market_title outcome price size strategy
          reason trade_type now = s) ∧
    (∀ (s : TradingBotState) (market_id market_title outcome : String)
        (price size : ℚ) (strategy reason trade_type : String) (now : ℚ),
      size ≤ s.balance →
        dictGet (open_position s market_id market_title outcome price size
            strategy reason trade_type now).positions
          (positionKey market_id outcome) =
          some { market_id := market_id, market_title := market_title,
                 outcome := outcome, entry_price := price, size := size,
                 entry_time := now, current_price := price, unrealized_pnl := 0,
                 strategy := strategy, trade_type := trade_type }) ∧
    (∀ (s : TradingBotState) (market_title : String) (analysis : MarketAnalysis)
        (outcome strategy trade_type : String) (psp : Option ℚ)
        (fresh : Option (ℚ × ℚ)) (now : ℚ),
      effective_trade_price analysis outcome strategy fresh = none →
        execute_opportunity_directional s market_title analysis outcome strategy
          trade_type psp fresh now = s) ∧
    (∀ (s : TradingBotState) (market_title : String) (analysis : MarketAnalysis)
        (outcome strategy trade_type : String) (psp : Option ℚ)
        (fresh : Option (ℚ × ℚ)) (now : ℚ),
      dictGet s.positions (positionKey analysis.market_id outcome) ≠ none →
        execute_opportunity_directional s market_title analysis outcome strategy
          trade_type psp fresh now = s) ∧
    (∀ (analysis : MarketAnalysis) (outcome strategy : String)
        (fresh : Option (ℚ × ℚ)),
      strategy ≠ "catch_all" →
      (candidate_price analysis outcome fresh < 0.10 ∨
        candidate_price analysis outcome fresh > 0.99) →
      (fallback_price analysis outcome < 0.10 ∨
        fallback_price analysis outcome > 0.99) →
      effective_trade_price analysis outcome strategy fresh = none) ∧
    (∀ (analysis : MarketAnalysis) (outcome : String) (fresh : Option (ℚ × ℚ)),
      (candidate_price analysis outcome fresh < 0.01 ∨
        candidate_price analysis outcome fresh > 0.99) →
      ¬(0.01 ≤ fallback_price analysis outcome ∧
        fallback_price analysis outcome ≤ 0.99) →
      effective_trade_price analysis outcome "catch_all" fresh = none) := by
  refine ⟨?_, ?_, ?_, ?_, ?_, ?_⟩
  · intro s market_id market_title outcome price size strategy reason trade_type
      now h
    exact open_position_of_gt h
  · intro s market_id market_title outcome price size strategy reason trade_type
      now h
    rw [open_position_of_le (not_lt.mpr h)]
    exact dictGet_dictSet_self _ _ _
  · intro s market_title analysis outcome strategy trade_type psp fresh now h
    simp only [execute_opportunity_directional, h]
  · intro s market_title analysis outcome strategy trade_type psp fresh now h
    cases heff : effective_trade_price analysis outcome strategy fresh with
    | none => simp only [execute_opportunity_directional, heff]
    | some price =>
        obtain ⟨v, hv⟩ := Option.ne_none_iff_exists'.mp h
        simp only [execute_opportunity_directional, heff, hv,
          Option.isSome_some, if_true]
  · intro analysis outcome strategy fresh hns h1 h2
    simp only [effective_trade_price, if_neg hns]
    rw [if_pos h1, if_pos h2]
  · intro analysis outcome fresh h1 h2
    simp only [effective_trade_price, eq_self_iff_true, if_true]
    rw [if_pos h1, if_neg h2]

/-- Analysis with analysis prices far outside every band, for exercising the
skip path of the amended C4. -/
def lowPriceAnalysisExample : MarketAnalysis :=
  { market_id := "m2", volume := 0, liquidity := 0, trend := 0, momentum := 0,
    sentiment := 0.5, score := 5, arbitrage_opportunity := none, spread := 0,
    price_yes := 0.005, price_no := 0.995, volume_24h := 0,
    liquidity_depth := 0, volume_score := 0, context_score := 0 }

/-- Witness for the amended C4: an over-sized open is a no-op, and the
directional branch skips (state unchanged) when both the candidate and the
fallback prices lie below the `[0.10, 0.99]` band. -/
theorem open_noop_guards_witness :
    open_position (initState 100) "m" "T" "Yes" 0.5 200 "s" "r" "swing" 0 =
      initState 100 ∧
    execute_opportunity_directional (initState 100) "T" lowPriceAnalysisExample
      "Yes" "momentum" "swing" none (some (0.005, 0.995)) 0 = initState 100 :=
  ⟨open_noop_guards.1 _ "m" "T" "Yes" 0.5 200 "s" "r" "swing" 0
      (by norm_num [initState]),
   open_noop_guards.2.2.1 _ "T" lowPriceAnalysisExample "Yes" "momentum" "swing"
     none (some (0.005, 0.995)) 0
     (open_noop_guards.2.2.2.2.1 lowPriceAnalysisExample "Yes" "momentum"
       (some (0.005, 0.995)) (by decide)
       (by norm_num [candidate_price, isYesOutcome])
       (by norm_num [fallback_price, isYesOutcome, lowPriceAnalysisExample]))⟩

end BnbPoly
